import Mathlib

/-!
Formal model of the mlld Rust SDK live-transport client
(`src/sdk/rust/src/lib.rs`), shallowly embedded in Lean 4.

JSON values (`serde_json::Value`) are modelled by the inductive `Json`;
numbers are modelled as integers (the claims under verification never
depend on floating-point values).  Durations are modelled as natural
numbers of milliseconds.  Concurrency is modelled by explicit traces of
operations interleaving registry updates with stdout-reader line
processing.
-/

namespace Mlld

/-- Model of `serde_json::Value`.  Object field order is the order in
which the fields occur; lookup takes the first matching key, as a map
with unique keys does. -/
inductive Json where
  | null : Json
  | bool (b : Bool) : Json
  | num (n : Int) : Json
  | str (s : String) : Json
  | arr (elems : List Json) : Json
  | obj (fields : List (String × Json)) : Json
deriving Repr

/-- `Value::get(key)` on objects: first field with the given key. -/
def Json.get (j : Json) (key : String) : Option Json :=
  match j with
  | .obj fields => (fields.find? (fun p => p.1 = key)).map Prod.snd
  | _ => none

/-- Escape one character for JSON string output (quote and backslash,
the cases relevant to the model). -/
def escapeChar (c : Char) : String :=
  if c = '"' then "\\\"" else if c = '\\' then "\\\\" else String.singleton c

/-- Escape a string for JSON output. -/
def escapeString (s : String) : String :=
  String.join (s.toList.map escapeChar)

mutual

/-- Compact JSON serialization, modelling `serde_json::to_string`. -/
def Json.serialize : Json → String
  | .null => "null"
  | .bool true => "true"
  | .bool false => "false"
  | .num n => toString n
  | .str s => "\"" ++ escapeString s ++ "\""
  | .arr elems => "[" ++ serializeElems elems ++ "]"
  | .obj fields => "\x7b" ++ serializeFields fields ++ "\x7d"

/-- Serialize array elements, comma separated. -/
def serializeElems : List Json → String
  | [] => ""
  | [j] => Json.serialize j
  | j :: rest => Json.serialize j ++ "," ++ serializeElems rest

/-- Serialize object fields, comma separated. -/
def serializeFields : List (String × Json) → String
  | [] => ""
  | [p] => "\"" ++ escapeString p.1 ++ "\":" ++ Json.serialize p.2
  | p :: rest =>
      "\"" ++ escapeString p.1 ++ "\":" ++ Json.serialize p.2 ++ "," ++ serializeFields rest

end

/-- `str::trim` on the underlying character list: drop whitespace from
both ends. -/
def trimList (cs : List Char) : List Char :=
  ((cs.dropWhile Char.isWhitespace).reverse.dropWhile Char.isWhitespace).reverse

/-- `str::trim` as a string-to-string function. -/
def strTrim (s : String) : String := ⟨trimList s.data⟩

/-- Model of `StateWrite { path, value, timestamp }`. -/
structure StateWrite where
  path : String
  value : Json
  timestamp : Option String
deriving Repr

/-- `state_write_key`: the dedup key `"{path}|{serialized value}"`. -/
def state_write_key (w : StateWrite) : String :=
  w.path ++ "|" ++ w.value.serialize

/-- The dedup loop inside `merge_state_writes`: walk the concatenated
list, keeping an element iff its key has not been seen before (the
`HashSet::insert` check), modelled with the set of seen keys as a list. -/
def dedupLoop : List StateWrite → List String → List StateWrite
  | [], _ => []
  | w :: ws, seen =>
      if state_write_key w ∈ seen then dedupLoop ws seen
      else w :: dedupLoop ws (state_write_key w :: seen)

/-- `merge_state_writes(primary, secondary)`: early-returns the other
list when one side is empty, otherwise dedups the concatenation by
`state_write_key`, first occurrence kept. -/
def merge_state_writes (primary secondary : List StateWrite) : List StateWrite :=
  if secondary.isEmpty then primary
  else if primary.isEmpty then secondary
  else dedupLoop (primary ++ secondary) []

/-- The merge described by the spec's words: always deduplicate the
concatenation primary-then-secondary by `(path, serialized value)` key,
first seen wins (used to compare against `merge_state_writes`). -/
def specMerge (primary secondary : List StateWrite) : List StateWrite :=
  dedupLoop (primary ++ secondary) []

/-- The error enum of the SDK.  The `Io`/`Json` variants never occur on
the modelled paths; durations are milliseconds. -/
inductive Error where
  | mlld (message : String) (code : Option String)
  | transport (msg : String)
  | timeout (limit : Nat)
deriving Repr, DecidableEq

/-- The three error kinds distinguishable by matching on the enum. -/
inductive ErrorKind where
  | mlld
  | transport
  | timeout
deriving Repr, DecidableEq

/-- Which variant an error is. -/
def Error.kind : Error → ErrorKind
  | .mlld _ _ => .mlld
  | .transport _ => .transport
  | .timeout _ => .timeout

/-- `TransportMessage`: what the reader delivers on a request's channel. -/
inductive TransportMessage where
  | event (payload : Json)
  | result (payload : Json)
  | closed (reason : String)
deriving Repr

/-- `Value::as_str`. -/
def json_as_str : Json → Option String
  | .str s => some s
  | _ => none

/-- `value_to_request_id`: numeric ids must be non-negative
(`as_u64` / non-negative `as_i64`); string ids are parsed as decimal. -/
def value_to_request_id : Json → Option Nat
  | .num n => if 0 ≤ n then some n.toNat else none
  | .str s => s.toNat?
  | _ => none

/-- `error_from_payload`: message defaults to "mlld request failed",
code is the optional `code` string. -/
def error_from_payload (payload : Json) : Error :=
  Error.mlld (((payload.get "message").bind json_as_str).getD "mlld request failed")
    ((payload.get "code").bind json_as_str)

/-- `parse_state_write_event`: recognize `type == "state:write"` events
with a nested `write` object carrying at least a string `path`. -/
def parse_state_write_event (event : Json) : Option StateWrite :=
  if ((event.get "type").bind json_as_str) = some "state:write" then
    match event.get "write" with
    | none => none
    | some write =>
        match (write.get "path").bind json_as_str with
        | none => none
        | some path =>
            some { path := path
                   value := (write.get "value").getD Json.null
                   timestamp := (write.get "timestamp").bind json_as_str }
  else none

/-! ### The stdout reader and the pending registry

The registry (`pending: HashMap<u64, Sender<TransportMessage>>`) is
modelled by its key set, a duplicate-free list of pending request ids;
deliveries are recorded as `(request id, message)` pairs in delivery
order.  `registrations` is a ghost log of every `register_request` call,
used to state the one-terminal-per-id invariant. -/

/-- State of one live-transport session as seen by the stdout reader. -/
structure ReaderState where
  reg : List Nat
  delivered : List (Nat × TransportMessage)
  registrations : List Nat
  stderrBuf : String
  running : Bool
deriving Repr

/-- `HashMap::insert` on the key set (replace semantics). -/
def regInsert (id : Nat) (reg : List Nat) : List Nat :=
  id :: reg.filter (fun i => i ≠ id)

/-- `HashMap::remove` on the key set. -/
def regRemove (id : Nat) (reg : List Nat) : List Nat :=
  reg.filter (fun i => i ≠ id)

/-- `notify_all_pending`: drain the registry and send `Closed(msg)` to
every drained entry. -/
def notifyAll (s : ReaderState) (msg : String) : ReaderState :=
  { s with reg := [],
           delivered := s.delivered ++ s.reg.map (fun i => (i, TransportMessage.closed msg)) }

/-- `dispatch_event`: look up the id embedded in the event payload and,
if registered, deliver `Event` without removing the entry. -/
def dispatch_event (s : ReaderState) (event : Json) : ReaderState :=
  match (event.get "id").bind value_to_request_id with
  | none => s
  | some rid =>
      if rid ∈ s.reg then
        { s with delivered := s.delivered ++ [(rid, TransportMessage.event event)] }
      else s

/-- `dispatch_result`: look up the id embedded in the result payload
and, if registered, remove the entry and deliver `Result`. -/
def dispatch_result (s : ReaderState) (result : Json) : ReaderState :=
  match (result.get "id").bind value_to_request_id with
  | none => s
  | some rid =>
      if rid ∈ s.reg then
        { s with reg := regRemove rid s.reg,
                 delivered := s.delivered ++ [(rid, TransportMessage.result result)] }
      else s

/-- One parsed envelope line: dispatch its `event` field, then its
`result` field, as the reader loop does. -/
def processEnvelope (s : ReaderState) (envelope : Json) : ReaderState :=
  let s1 := match envelope.get "event" with
    | some ev => dispatch_event s ev
    | none => s
  match envelope.get "result" with
  | some r => dispatch_result s1 r
  | none => s1

/-- The end-of-stream closing reason: trimmed stderr text when
non-empty, else the generic reason. -/
def closeMessage (stderrBuf : String) : String :=
  if (trimList stderrBuf.data).isEmpty then "live transport closed"
  else strTrim stderrBuf

/-- The stderr thread's append: newline-joined accumulation. -/
def stderrAppend (buf line : String) : String :=
  if buf.data.isEmpty then line else buf ++ "\n" ++ line

/-- Operations interleaved at one session: registry calls from request
issuers, classified stdout lines, stderr lines.  A line is given already
classified (blank / failing JSON parse / parsed envelope), abstracting
the external JSON parser. -/
inductive ReaderOp where
  | register (id : Nat)
  | removeReq (id : Nat)
  | blankLine
  | malformedLine (errMsg : String)
  | envelopeLine (envelope : Json)
  | readError (errMsg : String)
  | endOfStream
  | stderrLine (line : String)

/-- One step of the interleaved session semantics.  Line-processing
steps apply only while the reader is running; registry and stderr steps
come from other threads and always apply. -/
def readerStep (s : ReaderState) (op : ReaderOp) : ReaderState :=
  match op with
  | .register id =>
      { s with reg := regInsert id s.reg, registrations := s.registrations ++ [id] }
  | .removeReq id => { s with reg := regRemove id s.reg }
  | .blankLine => s
  | .malformedLine e =>
      if s.running then notifyAll s ("invalid live response: " ++ e) else s
  | .envelopeLine j => if s.running then processEnvelope s j else s
  | .readError e =>
      if s.running then
        { notifyAll s ("live transport read error: " ++ e) with running := false }
      else s
  | .endOfStream =>
      if s.running then
        { notifyAll s (closeMessage s.stderrBuf) with running := false }
      else s
  | .stderrLine l => { s with stderrBuf := stderrAppend s.stderrBuf l }

/-- The initial session state: empty registry, nothing delivered,
empty stderr buffer, reader running. -/
def readerInit : ReaderState := ⟨[], [], [], "", true⟩

/-- Run a trace of session operations from the initial state. -/
def runReader (ops : List ReaderOp) : ReaderState :=
  ops.foldl readerStep readerInit

/-- Terminal messages are `Result` and `Closed`; `Event` is not. -/
def isTerminal : TransportMessage → Bool
  | .event _ => false
  | .result _ => true
  | .closed _ => true

/-- Number of terminal messages delivered for a given request id. -/
def termCount (delivered : List (Nat × TransportMessage)) (id : Nat) : Nat :=
  delivered.countP (fun p => p.1 == id && isTerminal p.2)

/-! ### `Client::await_request`

Time and the channel are abstracted by a trace of iterations, each
giving the elapsed milliseconds observed at the top of the loop and the
outcome of the blocking receive.  The returned record also logs the
best-effort `cancel` sends and the `remove_pending_request` calls, and
whether the transport was invalidated.  `result = none` means the trace
ended with the call still blocked. -/

/-- Outcome of one `recv` / `recv_timeout` call. -/
inductive RecvOutcome where
  | msg (m : TransportMessage)
  | timedOut
  | disconnected

/-- Result of a modelled `await_request` run, with its effect log. -/
structure AwaitResult where
  result : Option (Except Error (Json × List StateWrite))
  cancels : List Nat
  removes : List Nat
  invalidated : Bool
deriving Repr

/-- The receive part of one loop iteration: either exits the loop with
a final `AwaitResult`, or produces a message.  With a configured
timeout, `elapsed ≥ limit` or a receive timeout takes the
cancel-remove-Timeout path; without one, `recv()` never times out (that
trace is modelled as still blocked). -/
def recvStep (request_id : Nat) (timeout : Option Nat) (elapsed : Nat)
    (outcome : RecvOutcome) : Except AwaitResult TransportMessage :=
  match timeout with
  | some limit =>
      if limit ≤ elapsed then
        .error ⟨some (.error (.timeout limit)), [request_id], [request_id], false⟩
      else
        match outcome with
        | .timedOut =>
            .error ⟨some (.error (.timeout limit)), [request_id], [request_id], false⟩
        | .disconnected =>
            .error ⟨some (.error (.transport "live transport disconnected")), [], [], true⟩
        | .msg m => .ok m
  | none =>
      match outcome with
      | .timedOut => .error ⟨none, [], [], false⟩
      | .disconnected =>
          .error ⟨some (.error (.transport "live transport disconnected")), [], [], true⟩
      | .msg m => .ok m

/-- `await_request` over a trace of iterations, accumulating state-write
events; `acc` is the side list accumulated so far. -/
def await_request (request_id : Nat) (timeout : Option Nat)
    (steps : List (Nat × RecvOutcome)) (acc : List StateWrite) : AwaitResult :=
  match steps with
  | [] => ⟨none, [], [], false⟩
  | (elapsed, outcome) :: rest =>
      match recvStep request_id timeout elapsed outcome with
      | .error final => final
      | .ok (TransportMessage.event ev) =>
          await_request request_id timeout rest
            (match parse_state_write_event ev with
             | some w => acc ++ [w]
             | none => acc)
      | .ok (TransportMessage.result r) =>
          match r.get "error" with
          | some ep => ⟨some (.error (error_from_payload ep)), [], [], false⟩
          | none => ⟨some (.ok (r, acc)), [], [], false⟩
      | .ok (TransportMessage.closed reason) =>
          ⟨some (.error (.transport reason)), [], [], true⟩

/-! ### `Client::update_state_request` -/

/-- Outcome of one inner `state:update` round trip. -/
inductive AttemptOutcome where
  | ok
  | err (e : Error)
deriving Repr, DecidableEq

/-- Result of a modelled `update_state_request` run; `sleptMs` totals
the fixed 25 ms sleeps performed between retries; `result = none` means
the attempt trace ran out before the loop returned. -/
structure UpdateResult where
  result : Option (Except Error Unit)
  sleptMs : Nat
deriving Repr

/-- The fixed retry sleep, in milliseconds. -/
def retrySleepMs : Nat := 25

/-- The default retry deadline when the caller gives no timeout, in
milliseconds. -/
def defaultUpdateDeadlineMs : Nat := 2000

/-- The retry loop of `update_state_request`: each attempt comes with
the `Instant::now()` reading (ms) used for its deadline check.  An error
coded `REQUEST_NOT_FOUND` before the deadline sleeps 25 ms and retries;
at or past the deadline it returns the same code annotated with the
target id; any other outcome returns immediately. -/
def updateLoop (request_id : Nat) (deadline : Nat) :
    List (AttemptOutcome × Nat) → UpdateResult
  | [] => ⟨none, 0⟩
  | (outcome, now) :: rest =>
      match outcome with
      | .ok => ⟨some (.ok ()), 0⟩
      | .err (Error.mlld msg (some code)) =>
          if code = "REQUEST_NOT_FOUND" then
            if deadline ≤ now then
              ⟨some (.error (Error.mlld ("No active request for id " ++ toString request_id)
                  (some code))), 0⟩
            else
              let r := updateLoop request_id deadline rest
              ⟨r.result, r.sleptMs + retrySleepMs⟩
          else ⟨some (.error (Error.mlld msg (some code))), 0⟩
      | .err e => ⟨some (.error e), 0⟩

/-- `update_state_request`: blank paths fail immediately with a
validation error (Transport kind); otherwise the retry deadline is
`start + (timeout or 2000 ms)` and the loop above runs. -/
def update_state_request (request_id : Nat) (path : String) (timeout : Option Nat)
    (start : Nat) (attempts : List (AttemptOutcome × Nat)) : UpdateResult :=
  if (trimList path.data).isEmpty then
    ⟨some (.error (Error.transport "state update path is required")), 0⟩
  else
    updateLoop request_id (start + timeout.getD defaultUpdateDeadlineMs) attempts

/-! ### `RequestHandle::wait_raw` -/

/-- A request handle: `receiver` records whether the receiver is still
present (`Option<Receiver>` modelled by presence only). -/
structure RequestHandle where
  request_id : Nat
  receiver : Bool
  timeout : Option Nat
  cached_result : Option (Json × List StateWrite)

/-- How a `wait_raw` call resolved: from the cache, by awaiting the
channel, or by the already-taken-receiver failure. -/
inductive WaitEffect where
  | usedCache
  | awaited
  | alreadyTaken
deriving Repr, DecidableEq

/-- `wait_raw`, with the outcome of the inner `await_request` supplied
as an oracle (consulted only when the receiver is actually taken).
Returns the call's result, the updated handle, and how it resolved. -/
def wait_raw (h : RequestHandle) (awaitOutcome : Except Error (Json × List StateWrite)) :
    Except Error (Json × List StateWrite) × RequestHandle × WaitEffect :=
  match h.cached_result with
  | some t => (Except.ok t, h, WaitEffect.usedCache)
  | none =>
      if h.receiver then
        match awaitOutcome with
        | .ok t =>
            (.ok t, { h with receiver := false, cached_result := some t }, WaitEffect.awaited)
        | .error e => (.error e, { h with receiver := false }, WaitEffect.awaited)
      else
        (.error (Error.transport "request handle already awaited"), h, WaitEffect.alreadyTaken)

/-! ### Request-id allocation (`Client::new` / `start_request`) -/

/-- Client operations affecting the id counter and the session slot. -/
inductive ClientOp where
  | startRequest
  | restartSession
  | invalidateTransport
  | closeTransport
deriving Repr, DecidableEq

/-- The id counter (`AtomicU64`, initialized to 1) and whether the
session slot currently holds a live transport. -/
structure ClientState where
  next_request_id : Nat
  transportLive : Bool
deriving Repr, DecidableEq

/-- One client operation: `startRequest` is `AtomicU64::fetch_add(1)`
(returning the pre-increment value, with the stored sum wrapping at
`2 ^ 64` as u64 arithmetic does) plus ensuring a live session; session
restart/invalidate/close never touch the counter. -/
def clientStep (s : ClientState) : ClientOp → ClientState × Option Nat
  | .startRequest => (⟨(s.next_request_id + 1) % 2 ^ 64, true⟩, some s.next_request_id)
  | .restartSession => (⟨s.next_request_id, true⟩, none)
  | .invalidateTransport => (⟨s.next_request_id, false⟩, none)
  | .closeTransport => (⟨s.next_request_id, false⟩, none)

/-- `Client::new`: counter starts at 1, no live session. -/
def clientInit : ClientState := ⟨1, false⟩

/-- Run client operations, collecting the allocated ids in order. -/
def runClient : ClientState → List ClientOp → ClientState × List Nat
  | s, [] => (s, [])
  | s, op :: ops =>
      let step := clientStep s op
      let rest := runClient step.1 ops
      (rest.1, step.2.toList ++ rest.2)

/-- The ids a fresh client allocates along a trace of operations. -/
def allocatedIds (ops : List ClientOp) : List Nat :=
  (runClient clientInit ops).2

/-- The id sequence produced by consecutive allocations from counter
value `c`, with the u64 wraparound of `fetch_add`. -/
def wrapSeq (c : Nat) : Nat → List Nat
  | 0 => []
  | n + 1 => c :: wrapSeq ((c + 1) % 2 ^ 64) n

/-! ## Theorems -/

/-- C6: a request handle whose first wait succeeded caches the
`(payload, state-write list)` tuple, and every subsequent wait returns
the identical cached tuple without any receive: the call resolves from
the cache (`usedCache`), its outcome is independent of the channel
oracle, and the handle is unchanged. -/
theorem c6_wait_idempotent_after_success (h : RequestHandle)
    (t : Json × List StateWrite)
    (hc : h.cached_result = none) (hr : h.receiver = true) :
    (wait_raw h (Except.ok t)).1 = Except.ok t ∧
    (wait_raw h (Except.ok t)).2.1.cached_result = some t ∧
    ∀ a', wait_raw (wait_raw h (Except.ok t)).2.1 a' =
      (Except.ok t, (wait_raw h (Except.ok t)).2.1, WaitEffect.usedCache) := by
  simp [wait_raw, hc, hr]

/-- Witness for C6 at a concrete handle. -/
theorem c6_wait_idempotent_after_success_witness :
    (wait_raw ⟨1, true, none, none⟩ (Except.ok (Json.null, []))).1 =
      Except.ok (Json.null, ([] : List StateWrite)) :=
  (c6_wait_idempotent_after_success ⟨1, true, none, none⟩ (Json.null, []) rfl rfl).1

/-- C9 counterexample: waiting on a handle whose receiver is already
gone (no cached success) yields `Error::Transport("request handle
already awaited")`, whose kind is exactly the Transport kind — not a
kind distinct from transport errors, contrary to the claim. -/
theorem c9_counterexample :
    (wait_raw ⟨1, false, none, none⟩ (Except.ok (Json.null, []))).1 =
      Except.error (Error.transport "request handle already awaited") ∧
    (Error.transport "request handle already awaited").kind = ErrorKind.transport := by
  exact ⟨rfl, rfl⟩

/-- C9 (amended): the cache is consulted before the receiver (a cached
tuple is returned untouched for any oracle), and the already-taken
receiver case is signaled as a Transport-kind error distinguished from
other transport failures only by its fixed message "request handle
already awaited". -/
theorem c9_already_taken_signal (h : RequestHandle)
    (a : Except Error (Json × List StateWrite))
    (hc : h.cached_result = none) (hr : h.receiver = false) :
    wait_raw h a =
      (Except.error (Error.transport "request handle already awaited"), h,
        WaitEffect.alreadyTaken) ∧
    (Error.transport "request handle already awaited").kind = ErrorKind.transport ∧
    ∀ (h' : RequestHandle) (t : Json × List StateWrite) (a' : Except Error (Json × List StateWrite)),
      h'.cached_result = some t → wait_raw h' a' = (Except.ok t, h', WaitEffect.usedCache) := by
  refine ⟨?_, rfl, ?_⟩
  · simp [wait_raw, hc, hr]
  · intro h' t a' hc'
    simp [wait_raw, hc']

/-- Witness for the amended C9 at a concrete handle. -/
theorem c9_already_taken_signal_witness :
    wait_raw ⟨1, false, none, none⟩ (Except.ok (Json.null, [])) =
      (Except.error (Error.transport "request handle already awaited"),
        (⟨1, false, none, none⟩ : RequestHandle), WaitEffect.alreadyTaken) :=
  (c9_already_taken_signal ⟨1, false, none, none⟩ (Except.ok (Json.null, [])) rfl rfl).1

/-- C10: if the first wait fails, the error is propagated, nothing is
cached, and the receiver is consumed, so every subsequent wait — for
any channel oracle — returns the fixed `Transport("request handle
already awaited")` error rather than retrying or reproducing the
original error. -/
theorem c10_wait_after_error (h : RequestHandle) (e : Error)
    (a' : Except Error (Json × List StateWrite))
    (hc : h.cached_result = none) (hr : h.receiver = true) :
    (wait_raw h (Except.error e)).1 = Except.error e ∧
    (wait_raw h (Except.error e)).2.1.cached_result = none ∧
    (wait_raw h (Except.error e)).2.1.receiver = false ∧
    wait_raw (wait_raw h (Except.error e)).2.1 a' =
      (Except.error (Error.transport "request handle already awaited"),
        (wait_raw h (Except.error e)).2.1, WaitEffect.alreadyTaken) := by
  simp [wait_raw, hc, hr]

/-- Witness for C10 at a concrete handle and a Timeout first failure:
the second wait reports the Transport-kind sentinel, not a timeout. -/
theorem c10_wait_after_error_witness :
    (wait_raw ⟨1, true, none, none⟩ (Except.error (Error.timeout 5))).1 =
      Except.error (Error.timeout 5) ∧
    wait_raw (wait_raw ⟨1, true, none, none⟩ (Except.error (Error.timeout 5))).2.1
        (Except.ok (Json.null, [])) =
      (Except.error (Error.transport "request handle already awaited"),
        (wait_raw ⟨1, true, none, none⟩ (Except.error (Error.timeout 5))).2.1,
        WaitEffect.alreadyTaken) :=
  ⟨(c10_wait_after_error ⟨1, true, none, none⟩ (Error.timeout 5)
      (Except.ok (Json.null, [])) rfl rfl).1,
   (c10_wait_after_error ⟨1, true, none, none⟩ (Error.timeout 5)
      (Except.ok (Json.null, [])) rfl rfl).2.2.2⟩

/-- Ids allocated from a client state whose counter can reach the end
of the trace without wrapping are pairwise strictly increasing and
bounded between the current counter and the counter plus the number of
allocations. -/
theorem runClient_ids_bounded (ops : List ClientOp) (s : ClientState)
    (h : s.next_request_id + ops.count ClientOp.startRequest ≤ 2 ^ 64) :
    List.Pairwise (· < ·) (runClient s ops).2 ∧
    ∀ i ∈ (runClient s ops).2,
      s.next_request_id ≤ i ∧
        i < s.next_request_id + ops.count ClientOp.startRequest := by
  induction ops generalizing s with
  | nil => simp [runClient]
  | cons op ops ih =>
    cases op with
    | startRequest =>
      have hcnt : (ClientOp.startRequest :: ops).count ClientOp.startRequest =
          ops.count ClientOp.startRequest + 1 := by simp [List.count_cons]
      have hrw : (runClient s (ClientOp.startRequest :: ops)).2 =
          s.next_request_id ::
            (runClient ⟨(s.next_request_id + 1) % 2 ^ 64, true⟩ ops).2 := rfl
      rw [hcnt] at h
      rw [hrw, hcnt]
      by_cases hlt : s.next_request_id + 1 < 2 ^ 64
      · rw [Nat.mod_eq_of_lt hlt]
        have hih : List.Pairwise (· < ·)
            (runClient ⟨s.next_request_id + 1, true⟩ ops).2 ∧
            ∀ i ∈ (runClient ⟨s.next_request_id + 1, true⟩ ops).2,
              s.next_request_id + 1 ≤ i ∧
                i < s.next_request_id + 1 + ops.count ClientOp.startRequest :=
          ih ⟨s.next_request_id + 1, true⟩
            (by show s.next_request_id + 1 + ops.count ClientOp.startRequest ≤ 2 ^ 64
                omega)
        refine ⟨List.pairwise_cons.mpr
          ⟨fun i hi => Nat.lt_of_succ_le (hih.2 i hi).1, hih.1⟩, ?_⟩
        intro i hi
        rcases List.mem_cons.mp hi with rfl | hi
        · exact ⟨Nat.le_refl _, by omega⟩
        · have hb := hih.2 i hi
          exact ⟨by omega, by omega⟩
      · have heq : s.next_request_id + 1 = 2 ^ 64 := by omega
        have hcnt0 : ops.count ClientOp.startRequest = 0 := by omega
        have hmod0 : (s.next_request_id + 1) % 2 ^ 64 = 0 := by
          rw [heq, Nat.mod_self]
        rw [hmod0]
        have hih : List.Pairwise (· < ·) (runClient ⟨0, true⟩ ops).2 ∧
            ∀ i ∈ (runClient ⟨0, true⟩ ops).2,
              0 ≤ i ∧ i < 0 + ops.count ClientOp.startRequest :=
          ih ⟨0, true⟩
            (by show 0 + ops.count ClientOp.startRequest ≤ 2 ^ 64; omega)
        have hempty : ∀ i ∈ (runClient ⟨0, true⟩ ops).2, False := by
          intro i hi
          have hb := (hih.2 i hi).2
          omega
        refine ⟨List.pairwise_cons.mpr
          ⟨fun i hi => (hempty i hi).elim, hih.1⟩, ?_⟩
        intro i hi
        rcases List.mem_cons.mp hi with rfl | hi
        · exact ⟨Nat.le_refl _, by omega⟩
        · exact (hempty i hi).elim
    | restartSession =>
      have hcnt : (ClientOp.restartSession :: ops).count ClientOp.startRequest =
          ops.count ClientOp.startRequest := by simp [List.count_cons]
      have hrw : (runClient s (ClientOp.restartSession :: ops)).2 =
          (runClient ⟨s.next_request_id, true⟩ ops).2 := rfl
      rw [hcnt] at h
      rw [hrw, hcnt]
      exact ih ⟨s.next_request_id, true⟩
        (by show s.next_request_id + ops.count ClientOp.startRequest ≤ 2 ^ 64; omega)
    | invalidateTransport =>
      have hcnt : (ClientOp.invalidateTransport :: ops).count ClientOp.startRequest =
          ops.count ClientOp.startRequest := by simp [List.count_cons]
      have hrw : (runClient s (ClientOp.invalidateTransport :: ops)).2 =
          (runClient ⟨s.next_request_id, false⟩ ops).2 := rfl
      rw [hcnt] at h
      rw [hrw, hcnt]
      exact ih ⟨s.next_request_id, false⟩
        (by show s.next_request_id + ops.count ClientOp.startRequest ≤ 2 ^ 64; omega)
    | closeTransport =>
      have hcnt : (ClientOp.closeTransport :: ops).count ClientOp.startRequest =
          ops.count ClientOp.startRequest := by simp [List.count_cons]
      have hrw : (runClient s (ClientOp.closeTransport :: ops)).2 =
          (runClient ⟨s.next_request_id, false⟩ ops).2 := rfl
      rw [hcnt] at h
      rw [hrw, hcnt]
      exact ih ⟨s.next_request_id, false⟩
        (by show s.next_request_id + ops.count ClientOp.startRequest ≤ 2 ^ 64; omega)

/-- A trace of `n` allocations from any client state yields the
wrapping id sequence from its counter value. -/
theorem runClient_replicate (n : Nat) : ∀ (s : ClientState),
    (runClient s (List.replicate n ClientOp.startRequest)).2 =
      wrapSeq s.next_request_id n := by
  induction n with
  | zero => intro s; rfl
  | succ n ih =>
    intro s
    have hrw : (runClient s
        (List.replicate (n + 1) ClientOp.startRequest)).2 =
        s.next_request_id ::
          (runClient ⟨(s.next_request_id + 1) % 2 ^ 64, true⟩
            (List.replicate n ClientOp.startRequest)).2 := rfl
    rw [hrw, ih ⟨(s.next_request_id + 1) % 2 ^ 64, true⟩, wrapSeq]

/-- Splitting a wrapping id sequence at an intermediate point. -/
theorem wrapSeq_append (m : Nat) : ∀ n c, c < 2 ^ 64 →
    wrapSeq c (m + n) = wrapSeq c m ++ wrapSeq ((c + m) % 2 ^ 64) n := by
  induction m with
  | zero =>
    intro n c hc
    have h0 : (c + 0) % 2 ^ 64 = c := by
      rw [Nat.add_zero, Nat.mod_eq_of_lt hc]
    rw [Nat.zero_add, h0]
    rfl
  | succ m ih =>
    intro n c hc
    have h1 : (c + 1) % 2 ^ 64 < 2 ^ 64 := Nat.mod_lt _ (by norm_num)
    have hmod : ((c + 1) % 2 ^ 64 + m) % 2 ^ 64 = (c + (m + 1)) % 2 ^ 64 := by
      rw [Nat.mod_add_mod]
      congr 1
      omega
    have hidx : m + 1 + n = (m + n) + 1 := by omega
    rw [hidx]
    show c :: wrapSeq ((c + 1) % 2 ^ 64) (m + n) = _
    rw [ih n _ h1, hmod]
    rfl

/-- C8 counterexample: over the concrete trace of `2 ^ 64 + 1`
consecutive requests, the u64 counter wraps, so id 1 is allocated twice
and the allocated ids are neither duplicate-free nor strictly
increasing — the claim fails for sufficiently long request sequences. -/
theorem c8_counterexample :
    ¬ (allocatedIds (List.replicate (2 ^ 64 + 1) ClientOp.startRequest)).Nodup ∧
    ¬ List.Pairwise (· < ·)
      (allocatedIds (List.replicate (2 ^ 64 + 1) ClientOp.startRequest)) := by
  have hW : (1 : Nat) < 2 ^ 64 := by norm_num
  have hids : allocatedIds (List.replicate (2 ^ 64 + 1) ClientOp.startRequest) =
      wrapSeq 1 (2 ^ 64 - 1) ++ [0, 1] := by
    unfold allocatedIds
    rw [runClient_replicate]
    have hinit : clientInit.next_request_id = 1 := rfl
    rw [hinit]
    have hsplit : 2 ^ 64 + 1 = (2 ^ 64 - 1) + 2 := by omega
    rw [hsplit, wrapSeq_append _ _ _ hW]
    have hmod0 : (1 + (2 ^ 64 - 1)) % 2 ^ 64 = 0 := by
      have hsum : 1 + (2 ^ 64 - 1) = 2 ^ 64 := by omega
      rw [hsum, Nat.mod_self]
    rw [hmod0]
    have htail : wrapSeq 0 2 = [0, 1] := by
      show 0 :: wrapSeq (1 % 2 ^ 64) 1 = [0, 1]
      rw [Nat.mod_eq_of_lt hW]
      rfl
    rw [htail]
  have hmem : 1 ∈ wrapSeq 1 (2 ^ 64 - 1) := by
    have hpred : 2 ^ 64 - 1 = (2 ^ 64 - 2) + 1 := by omega
    rw [hpred, wrapSeq]
    exact List.mem_cons_self _ _
  have hnotnodup :
      ¬ (allocatedIds (List.replicate (2 ^ 64 + 1) ClientOp.startRequest)).Nodup := by
    intro hnd
    rw [hids] at hnd
    exact List.disjoint_of_nodup_append hnd hmem (by simp)
  refine ⟨hnotnodup, fun hpw => hnotnodup ?_⟩
  exact hpw.imp Nat.ne_of_lt

/-- C8 (amended): along any trace of client operations containing fewer
than `2 ^ 64` request allocations (the wrap point of the u64 counter),
the allocated request ids are pairwise strictly increasing and never
repeat, and neither a session restart nor an invalidation/close of the
session slot changes the id counter, so uniqueness survives worker
session replacement. -/
theorem c8_ids_strictly_increasing_never_reused (ops : List ClientOp)
    (h : ops.count ClientOp.startRequest < 2 ^ 64) :
    List.Pairwise (· < ·) (allocatedIds ops) ∧
    (allocatedIds ops).Nodup ∧
    (∀ s : ClientState,
      (clientStep s ClientOp.restartSession).1.next_request_id = s.next_request_id ∧
      (clientStep s ClientOp.invalidateTransport).1.next_request_id = s.next_request_id ∧
      (clientStep s ClientOp.closeTransport).1.next_request_id = s.next_request_id) := by
  have hb := runClient_ids_bounded ops clientInit
    (by show 1 + ops.count ClientOp.startRequest ≤ 2 ^ 64; omega)
  exact ⟨hb.1, hb.1.imp Nat.ne_of_lt, fun s => ⟨rfl, rfl, rfl⟩⟩

/-- Witness for the amended C8: a short trace with a session restart in
the middle still allocates strictly increasing, duplicate-free ids. -/
theorem c8_ids_strictly_increasing_never_reused_witness :
    List.Pairwise (· < ·) (allocatedIds
      [ClientOp.startRequest, ClientOp.restartSession, ClientOp.startRequest]) ∧
    (allocatedIds
      [ClientOp.startRequest, ClientOp.restartSession, ClientOp.startRequest]).Nodup :=
  ⟨(c8_ids_strictly_increasing_never_reused
      [ClientOp.startRequest, ClientOp.restartSession, ClientOp.startRequest]
      (by decide)).1,
   (c8_ids_strictly_increasing_never_reused
      [ClientOp.startRequest, ClientOp.restartSession, ClientOp.startRequest]
      (by decide)).2.1⟩

/-- `dedupLoop` output is a sublist of its input (order preserved). -/
theorem dedupLoop_sublist (l : List StateWrite) (seen : List String) :
    (dedupLoop l seen).Sublist l := by
  induction l generalizing seen with
  | nil => simp [dedupLoop]
  | cons w ws ih =>
    by_cases hmem : state_write_key w ∈ seen
    · simp only [dedupLoop, if_pos hmem]
      exact (ih seen).cons w
    · simp only [dedupLoop, if_neg hmem]
      exact (ih _).cons₂ w

/-- The keys of `dedupLoop` output avoid the seen set. -/
theorem dedupLoop_keys_not_seen (l : List StateWrite) (seen : List String) :
    ∀ k ∈ (dedupLoop l seen).map state_write_key, k ∉ seen := by
  induction l generalizing seen with
  | nil => simp [dedupLoop]
  | cons w ws ih =>
    by_cases hmem : state_write_key w ∈ seen
    · simpa only [dedupLoop, if_pos hmem] using ih seen
    · intro k hk
      simp only [dedupLoop, if_neg hmem, List.map_cons, List.mem_cons] at hk
      rcases hk with rfl | hk
      · exact hmem
      · exact fun hks => ih _ k hk (List.mem_cons_of_mem _ hks)

/-- The keys of `dedupLoop` output are duplicate-free. -/
theorem dedupLoop_keys_nodup (l : List StateWrite) (seen : List String) :
    ((dedupLoop l seen).map state_write_key).Nodup := by
  induction l generalizing seen with
  | nil => simp [dedupLoop]
  | cons w ws ih =>
    by_cases hmem : state_write_key w ∈ seen
    · simpa only [dedupLoop, if_pos hmem] using ih seen
    · simp only [dedupLoop, if_neg hmem, List.map_cons, List.nodup_cons]
      refine ⟨fun hk => ?_, ih _⟩
      exact dedupLoop_keys_not_seen ws _ _ hk (List.mem_cons_self _ _)

/-- First-seen-wins: among entries sharing one key, `dedupLoop` keeps
exactly the first occurrence (none if the key was already seen). -/
theorem dedupLoop_filter_key (l : List StateWrite) (seen : List String) (k : String) :
    (dedupLoop l seen).filter (fun w => state_write_key w == k) =
      if k ∈ seen then []
      else ((l.filter (fun w => state_write_key w == k)).take 1) := by
  induction l generalizing seen with
  | nil => simp [dedupLoop]
  | cons w ws ih =>
    by_cases hwk : state_write_key w = k
    · subst hwk
      by_cases hmem : state_write_key w ∈ seen
      · rw [dedupLoop, if_pos hmem, ih seen, if_pos hmem, if_pos hmem]
      · rw [dedupLoop, if_neg hmem, if_neg hmem]
        simp only [List.filter_cons, beq_self_eq_true, if_true]
        rw [ih (state_write_key w :: seen), if_pos (List.mem_cons_self _ _)]
        simp
    · have hpred : (state_write_key w == k) = false := by
        simp only [beq_eq_false_iff_ne, ne_eq]
        exact hwk
      by_cases hmem : state_write_key w ∈ seen
      · rw [dedupLoop, if_pos hmem, ih seen]
        simp only [List.filter_cons, hpred, Bool.false_eq_true, if_false]
      · rw [dedupLoop, if_neg hmem]
        simp only [List.filter_cons, hpred, Bool.false_eq_true, if_false]
        rw [ih (state_write_key w :: seen)]
        by_cases hks : k ∈ seen
        · rw [if_pos (List.mem_cons_of_mem _ hks), if_pos hks]
        · have hnotin : k ∉ state_write_key w :: seen := by
            intro hk
            rcases List.mem_cons.mp hk with h | h
            · exact hwk h.symm
            · exact hks h
          rw [if_neg hnotin, if_neg hks]

/-- C7 counterexample: with a duplicated primary entry and an empty
secondary list, `merge_state_writes` returns the primary list unchanged
(duplicate key retained), while the claimed always-dedup merge removes
the duplicate — the claim fails on pairs where one input is empty. -/
theorem c7_counterexample :
    merge_state_writes
        [⟨"a", Json.null, none⟩, ⟨"a", Json.null, none⟩] [] =
      [⟨"a", Json.null, none⟩, ⟨"a", Json.null, none⟩] ∧
    specMerge [⟨"a", Json.null, none⟩, ⟨"a", Json.null, none⟩] [] =
      [⟨"a", Json.null, none⟩] ∧
    merge_state_writes [⟨"a", Json.null, none⟩, ⟨"a", Json.null, none⟩] [] ≠
      specMerge [⟨"a", Json.null, none⟩, ⟨"a", Json.null, none⟩] [] := by
  have h2 : specMerge
      [(⟨"a", Json.null, none⟩ : StateWrite), ⟨"a", Json.null, none⟩] [] =
      [⟨"a", Json.null, none⟩] := by
    simp [specMerge, dedupLoop, state_write_key, Json.serialize]
  refine ⟨rfl, h2, ?_⟩
  intro h
  have hlists : ([(⟨"a", Json.null, none⟩ : StateWrite), ⟨"a", Json.null, none⟩]) =
      [⟨"a", Json.null, none⟩] := h.trans h2
  have hlen := congrArg List.length hlists
  simp at hlen

/-- C7 (amended): when both inputs are non-empty, `merge_state_writes`
is the concatenation primary-then-secondary deduplicated by
`(path, serialized value)` key — keys occur at most once, relative
order is preserved (a sublist of the concatenation), and among entries
sharing a key exactly the first occurrence survives, so primary entries
take precedence; when either input is empty the other list is returned
unchanged, without deduplication. -/
theorem c7_merge_dedup (primary secondary : List StateWrite)
    (hp : primary ≠ []) (hs : secondary ≠ []) :
    merge_state_writes primary secondary = specMerge primary secondary ∧
    ((merge_state_writes primary secondary).map state_write_key).Nodup ∧
    (merge_state_writes primary secondary).Sublist (primary ++ secondary) ∧
    (∀ k, (merge_state_writes primary secondary).filter (fun w => state_write_key w == k) =
      ((primary ++ secondary).filter (fun w => state_write_key w == k)).take 1) ∧
    (∀ p : List StateWrite, merge_state_writes p [] = p) ∧
    (∀ s : List StateWrite, merge_state_writes [] s = s) := by
  have hmerge : merge_state_writes primary secondary =
      dedupLoop (primary ++ secondary) [] := by
    simp [merge_state_writes, List.isEmpty_iff, hp, hs]
  refine ⟨hmerge, ?_, ?_, ?_, ?_, ?_⟩
  · rw [hmerge]; exact dedupLoop_keys_nodup _ _
  · rw [hmerge]; exact dedupLoop_sublist _ _
  · intro k
    rw [hmerge, dedupLoop_filter_key]
    simp
  · intro p; simp [merge_state_writes]
  · intro s
    cases s with
    | nil => simp [merge_state_writes]
    | cons a l => simp [merge_state_writes]

/-- Witness for the amended C7 at concrete non-empty inputs: a
secondary entry duplicating a primary key is dropped. -/
theorem c7_merge_dedup_witness :
    merge_state_writes [⟨"a", Json.null, none⟩] [⟨"a", Json.null, none⟩] =
      specMerge [⟨"a", Json.null, none⟩] [⟨"a", Json.null, none⟩] :=
  (c7_merge_dedup [⟨"a", Json.null, none⟩] [⟨"a", Json.null, none⟩]
    (by simp) (by simp)).1

/-- A trace of attempts that all report `REQUEST_NOT_FOUND` before the
deadline keeps retrying: no return yet, one fixed sleep per attempt. -/
theorem updateLoop_all_not_found (request_id deadline : Nat)
    (attempts : List (AttemptOutcome × Nat))
    (h : ∀ a ∈ attempts, ∃ m n,
      a = (AttemptOutcome.err (Error.mlld m (some "REQUEST_NOT_FOUND")), n) ∧ n < deadline) :
    updateLoop request_id deadline attempts =
      ⟨none, retrySleepMs * attempts.length⟩ := by
  induction attempts with
  | nil => simp [updateLoop]
  | cons a rest ih =>
    obtain ⟨m, n, rfl, hn⟩ := h _ (List.mem_cons_self _ _)
    have hrest := ih (fun a ha => h a (List.mem_cons_of_mem _ ha))
    rw [updateLoop]
    simp [hrest, Nat.not_le.mpr hn, Nat.mul_succ]

/-- C5: for a non-blank path, the retry deadline is the caller's
timeout (or the 2000 ms default) past the start instant, and with the
retry sleep fixed at 25 ms: an inner error coded `REQUEST_NOT_FOUND`
at or past the deadline returns that code annotated with the target id;
before the deadline it sleeps 25 ms and retries (a trace of such errors
keeps retrying, one sleep each); a success returns at once; and any
error not carrying that code returns immediately with no sleep. -/
theorem c5_update_state_retry (request_id : Nat) (path : String) (timeout : Option Nat)
    (start now : Nat) (rest : List (AttemptOutcome × Nat)) (msg : String)
    (hpath : (trimList path.data).isEmpty = false) :
    (retrySleepMs = 25 ∧ defaultUpdateDeadlineMs = 2000) ∧
    (start + timeout.getD defaultUpdateDeadlineMs ≤ now →
      update_state_request request_id path timeout start
          ((AttemptOutcome.err (Error.mlld msg (some "REQUEST_NOT_FOUND")), now) :: rest) =
        ⟨some (Except.error (Error.mlld ("No active request for id " ++ toString request_id)
          (some "REQUEST_NOT_FOUND"))), 0⟩) ∧
    (now < start + timeout.getD defaultUpdateDeadlineMs →
      update_state_request request_id path timeout start
          ((AttemptOutcome.err (Error.mlld msg (some "REQUEST_NOT_FOUND")), now) :: rest) =
        ⟨(updateLoop request_id (start + timeout.getD defaultUpdateDeadlineMs) rest).result,
          (updateLoop request_id (start + timeout.getD defaultUpdateDeadlineMs) rest).sleptMs
            + retrySleepMs⟩) ∧
    (update_state_request request_id path timeout start ((AttemptOutcome.ok, now) :: rest) =
      ⟨some (Except.ok ()), 0⟩) ∧
    (∀ e : Error, (∀ m, e ≠ Error.mlld m (some "REQUEST_NOT_FOUND")) →
      update_state_request request_id path timeout start
          ((AttemptOutcome.err e, now) :: rest) =
        ⟨some (Except.error e), 0⟩) ∧
    (∀ attempts : List (AttemptOutcome × Nat),
      (∀ a ∈ attempts, ∃ m n,
        a = (AttemptOutcome.err (Error.mlld m (some "REQUEST_NOT_FOUND")), n) ∧
          n < start + timeout.getD defaultUpdateDeadlineMs) →
      update_state_request request_id path timeout start attempts =
        ⟨none, retrySleepMs * attempts.length⟩) := by
  refine ⟨⟨rfl, rfl⟩, ?_, ?_, ?_, ?_, ?_⟩
  · intro hdl
    simp [update_state_request, hpath, updateLoop, hdl]
  · intro hdl
    simp [update_state_request, hpath]
    rw [updateLoop]
    simp [Nat.not_le.mpr hdl]
  · simp [update_state_request, hpath, updateLoop]
  · intro e he
    simp only [update_state_request, hpath, Bool.false_eq_true, if_false]
    cases e with
    | mlld m code =>
      cases code with
      | none => rw [updateLoop]; simp
      | some c =>
        have hc : c ≠ "REQUEST_NOT_FOUND" := by
          intro hceq
          exact he m (by rw [hceq])
        rw [updateLoop]
        simp [hc]
    | transport m => rw [updateLoop]; simp
    | timeout d => rw [updateLoop]; simp
  · intro attempts hall
    simp only [update_state_request, hpath, Bool.false_eq_true, if_false]
    exact updateLoop_all_not_found request_id _ attempts hall

/-- Witness for C5: a not-found error observed at the deadline fails
with the annotated not-found error. -/
theorem c5_update_state_retry_witness :
    update_state_request 3 "exit" none 0
        [(AttemptOutcome.err (Error.mlld "nf" (some "REQUEST_NOT_FOUND")), 2000)] =
      ⟨some (Except.error (Error.mlld "No active request for id 3"
        (some "REQUEST_NOT_FOUND"))), 0⟩ :=
  (c5_update_state_retry 3 "exit" none 0 2000 [] "nf" (by decide)).2.1 (by decide)

/-- In `await_request` with a configured timeout: a Timeout result
always carries the configured limit; a Timeout result is accompanied by
exactly one cancel and one registry removal, both for the awaited id;
and any cancel at all means the run ended with that Timeout. -/
theorem await_timeout_inv (request_id limit : Nat)
    (steps : List (Nat × RecvOutcome)) :
    ∀ acc : List StateWrite,
    (∀ t, (await_request request_id (some limit) steps acc).result =
        some (Except.error (Error.timeout t)) → t = limit) ∧
    ((await_request request_id (some limit) steps acc).result =
        some (Except.error (Error.timeout limit)) →
      (await_request request_id (some limit) steps acc).cancels = [request_id] ∧
      (await_request request_id (some limit) steps acc).removes = [request_id]) ∧
    ((await_request request_id (some limit) steps acc).cancels ≠ [] →
      (await_request request_id (some limit) steps acc).result =
        some (Except.error (Error.timeout limit))) := by
  induction steps with
  | nil => intro acc; simp [await_request]
  | cons s rest ih =>
    obtain ⟨elapsed, outcome⟩ := s
    intro acc
    by_cases hel : limit ≤ elapsed
    · simp [await_request, recvStep, hel]
    · cases outcome with
      | timedOut => simp [await_request, recvStep, hel]
      | disconnected => simp [await_request, recvStep, hel]
      | msg m =>
        cases m with
        | event ev => simpa [await_request, recvStep, hel] using ih _
        | result r =>
          cases hr : r.get "error" with
          | some ep => simp [await_request, recvStep, hel, hr, error_from_payload]
          | none => simp [await_request, recvStep, hel, hr]
        | closed reason => simp [await_request, recvStep, hel]

/-- C4: with a configured timeout, whenever `await_request` returns a
Timeout, the timeout carries the configured limit and comes with
exactly one best-effort cancel and one registry removal for the awaited
id (and cancels happen only on that path); moreover, once the elapsed
time reaches the limit, or the blocking receive times out, the call
returns that Timeout immediately — the rest of the trace is never
consulted, so nothing waits for a cancel acknowledgment. -/
theorem c4_timeout_cancel_once (request_id limit : Nat)
    (steps : List (Nat × RecvOutcome)) (acc : List StateWrite) :
    (∀ t, (await_request request_id (some limit) steps acc).result =
        some (Except.error (Error.timeout t)) →
      t = limit ∧
      (await_request request_id (some limit) steps acc).cancels = [request_id] ∧
      (await_request request_id (some limit) steps acc).removes = [request_id]) ∧
    ((await_request request_id (some limit) steps acc).cancels ≠ [] →
      (await_request request_id (some limit) steps acc).result =
        some (Except.error (Error.timeout limit))) ∧
    (∀ (elapsed : Nat) (outcome : RecvOutcome) (rest : List (Nat × RecvOutcome)),
      limit ≤ elapsed →
      await_request request_id (some limit) ((elapsed, outcome) :: rest) acc =
        ⟨some (Except.error (Error.timeout limit)), [request_id], [request_id], false⟩) ∧
    (∀ (elapsed : Nat) (rest : List (Nat × RecvOutcome)), elapsed < limit →
      await_request request_id (some limit) ((elapsed, RecvOutcome.timedOut) :: rest) acc =
        ⟨some (Except.error (Error.timeout limit)), [request_id], [request_id], false⟩) := by
  have h := await_timeout_inv request_id limit steps acc
  refine ⟨?_, h.2.2, ?_, ?_⟩
  · intro t ht
    obtain rfl := h.1 t ht
    exact ⟨rfl, h.2.1 ht⟩
  · intro elapsed outcome rest hel
    simp [await_request, recvStep, hel]
  · intro elapsed rest hel
    simp [await_request, recvStep, Nat.not_le.mpr hel]

/-- Witness for C4: a receive timeout before any message yields the
Timeout error with one cancel and one removal. -/
theorem c4_timeout_cancel_once_witness :
    await_request 1 (some 100) [(150, RecvOutcome.timedOut)] [] =
      ⟨some (Except.error (Error.timeout 100)), [1], [1], false⟩ :=
  (c4_timeout_cancel_once 1 100 [] []).2.2.1 150 RecvOutcome.timedOut [] (by decide)

/-- C2: a non-blank line that fails to parse drains the registry,
delivering `Closed` with the parse error to every currently pending id,
while the reader keeps running; a request registered afterwards still
has a well-formed result envelope routed to it (delivered as `Result`
and removed from the registry). -/
theorem c2_malformed_line_keeps_reading (s : ReaderState) (e : String) (id : Nat)
    (res : Json) (hrun : s.running = true)
    (hid : (res.get "id").bind value_to_request_id = some id) :
    ((readerStep s (ReaderOp.malformedLine e)).reg = [] ∧
     (readerStep s (ReaderOp.malformedLine e)).running = true ∧
     ∀ i ∈ s.reg,
       (i, TransportMessage.closed ("invalid live response: " ++ e)) ∈
         (readerStep s (ReaderOp.malformedLine e)).delivered) ∧
    (readerStep
        (readerStep (readerStep s (ReaderOp.malformedLine e)) (ReaderOp.register id))
        (ReaderOp.envelopeLine (Json.obj [("result", res)])) =
      { readerStep (readerStep s (ReaderOp.malformedLine e)) (ReaderOp.register id) with
          reg := [],
          delivered :=
            (readerStep (readerStep s (ReaderOp.malformedLine e))
              (ReaderOp.register id)).delivered ++
              [(id, TransportMessage.result res)] }) := by
  have hs1 : readerStep s (ReaderOp.malformedLine e) =
      { s with reg := [],
               delivered := s.delivered ++ s.reg.map
                 (fun i => (i, TransportMessage.closed ("invalid live response: " ++ e))) } := by
    simp [readerStep, hrun, notifyAll]
  refine ⟨⟨?_, ?_, ?_⟩, ?_⟩
  · rw [hs1]
  · rw [hs1]; exact hrun
  · intro i hi
    rw [hs1]
    exact List.mem_append_right _ (List.mem_map_of_mem _ hi)
  · have hgetEv : (Json.obj [("result", res)]).get "event" = none := rfl
    have hgetRes : (Json.obj [("result", res)]).get "result" = some res := rfl
    rw [hs1]
    simp [readerStep, hrun, regInsert, processEnvelope, hgetEv, hgetRes,
      dispatch_result, hid, regRemove]

/-- Witness for C2: one pending id 5 is notified on a malformed line,
and a later registration of id 9 still receives its result. -/
theorem c2_malformed_line_keeps_reading_witness :
    (readerStep ⟨[5], [], [5], "", true⟩ (ReaderOp.malformedLine "bad")).reg = [] ∧
    (readerStep
        (readerStep (readerStep ⟨[5], [], [5], "", true⟩ (ReaderOp.malformedLine "bad"))
          (ReaderOp.register 9))
        (ReaderOp.envelopeLine (Json.obj [("result", Json.obj [("id", Json.num 9)])]))).reg =
      [] :=
  ⟨(c2_malformed_line_keeps_reading ⟨[5], [], [5], "", true⟩ "bad" 9
      (Json.obj [("id", Json.num 9)]) rfl rfl).1.1,
   by
    rw [(c2_malformed_line_keeps_reading ⟨[5], [], [5], "", true⟩ "bad" 9
      (Json.obj [("id", Json.num 9)]) rfl rfl).2]⟩

/-- C3 counterexample: with accumulated stderr text "boom", a read I/O
error delivers `Closed` whose reason is the read-error text, not the
trimmed stderr text, refuting the claim that both termination cases use
the stderr text when non-empty. -/
theorem c3_counterexample :
    (runReader [ReaderOp.register 7, ReaderOp.stderrLine "boom",
      ReaderOp.readError "io"]).delivered =
        [(7, TransportMessage.closed "live transport read error: io")] ∧
    strTrim (runReader [ReaderOp.register 7, ReaderOp.stderrLine "boom",
      ReaderOp.readError "io"]).stderrBuf = "boom" ∧
    ("live transport read error: io" : String) ≠ "boom" := by
  refine ⟨rfl, by decide, by decide⟩

/-- C3 (amended): whenever the reader terminates it drains the registry
and delivers `Closed` to every remaining pending id, and the reader
stops; on end of stream the reason is the trimmed stderr text when
non-empty, else "live transport closed"; on a read I/O error the reason
is "live transport read error: " followed by the error text, regardless
of the stderr buffer. -/
theorem c3_reader_close_reasons (s : ReaderState) (e : String)
    (hrun : s.running = true) :
    ((readerStep s ReaderOp.endOfStream).reg = [] ∧
     (readerStep s ReaderOp.endOfStream).running = false ∧
     (∀ i ∈ s.reg,
       (i, TransportMessage.closed (closeMessage s.stderrBuf)) ∈
         (readerStep s ReaderOp.endOfStream).delivered) ∧
     ((trimList s.stderrBuf.data).isEmpty = false →
       closeMessage s.stderrBuf = strTrim s.stderrBuf) ∧
     ((trimList s.stderrBuf.data).isEmpty = true →
       closeMessage s.stderrBuf = "live transport closed")) ∧
    ((readerStep s (ReaderOp.readError e)).reg = [] ∧
     (readerStep s (ReaderOp.readError e)).running = false ∧
     ∀ i ∈ s.reg,
       (i, TransportMessage.closed ("live transport read error: " ++ e)) ∈
         (readerStep s (ReaderOp.readError e)).delivered) := by
  refine ⟨⟨?_, ?_, ?_, ?_, ?_⟩, ?_, ?_, ?_⟩
  · simp [readerStep, hrun, notifyAll]
  · simp [readerStep, hrun, notifyAll]
  · intro i hi
    simp only [readerStep, hrun, if_true, notifyAll]
    exact List.mem_append_right _ (List.mem_map_of_mem _ hi)
  · intro hne; simp [closeMessage, hne]
  · intro hemp; simp [closeMessage, hemp]
  · simp [readerStep, hrun, notifyAll]
  · simp [readerStep, hrun, notifyAll]
  · intro i hi
    simp only [readerStep, hrun, if_true, notifyAll]
    exact List.mem_append_right _ (List.mem_map_of_mem _ hi)

/-- Witness for the amended C3: a session with pending id 7 and stderr
text "boom" delivers `Closed "boom"` to id 7 at end of stream. -/
theorem c3_reader_close_reasons_witness :
    (readerStep ⟨[7], [], [7], "boom", true⟩ ReaderOp.endOfStream).reg = [] ∧
    closeMessage "boom" = strTrim "boom" ∧
    (7, TransportMessage.closed (closeMessage "boom")) ∈
      (readerStep ⟨[7], [], [7], "boom", true⟩ ReaderOp.endOfStream).delivered :=
  ⟨(c3_reader_close_reasons ⟨[7], [], [7], "boom", true⟩ "io" rfl).1.1,
   (c3_reader_close_reasons ⟨[7], [], [7], "boom", true⟩ "io" rfl).1.2.2.2.1 (by decide),
   (c3_reader_close_reasons ⟨[7], [], [7], "boom", true⟩ "io" rfl).1.2.2.1 7
     (List.mem_singleton.mpr rfl)⟩

/-- The registry/delivery invariant maintained by every session step:
the pending set is duplicate-free, and for every id the number of
terminal messages delivered for it, plus one if it is still pending,
never exceeds the number of times it was registered. -/
def ReaderInv (s : ReaderState) : Prop :=
  s.reg.Nodup ∧
  ∀ id : Nat,
    termCount s.delivered id + (if id ∈ s.reg then 1 else 0) ≤ s.registrations.count id

/-- Terminal counts add over concatenated delivery logs. -/
theorem termCount_append (d1 d2 : List (Nat × TransportMessage)) (id : Nat) :
    termCount (d1 ++ d2) id = termCount d1 id + termCount d2 id :=
  List.countP_append _ _ _

/-- A drain broadcast contributes one terminal per registry occurrence. -/
theorem termCount_closed_map (reg : List Nat) (msg : String) (id : Nat) :
    termCount (reg.map (fun i => (i, TransportMessage.closed msg))) id =
      reg.count id := by
  unfold termCount
  rw [List.countP_map]
  have hfun : ((fun p : Nat × TransportMessage => p.1 == id && isTerminal p.2) ∘
      (fun i => (i, TransportMessage.closed msg))) = fun i => i == id := by
    funext i
    simp [Function.comp, isTerminal]
  rw [hfun]
  rfl

/-- A delivered event is not terminal. -/
theorem termCount_event_singleton (rid id : Nat) (ev : Json) :
    termCount [(rid, TransportMessage.event ev)] id = 0 := by
  simp [termCount, List.countP_cons, isTerminal]

/-- A delivered result is one terminal for its id. -/
theorem termCount_result_singleton (rid id : Nat) (r : Json) :
    termCount [(rid, TransportMessage.result r)] id = if rid = id then 1 else 0 := by
  by_cases h : rid = id <;> simp [termCount, List.countP_cons, isTerminal, h]

/-- `notify_all_pending` preserves the invariant: each drained id had a
free registration slot, which its `Closed` delivery consumes. -/
theorem notifyAll_inv (s : ReaderState) (msg : String) (h : ReaderInv s) :
    ReaderInv (notifyAll s msg) := by
  refine ⟨by simp [notifyAll], ?_⟩
  intro id
  have hc := h.2 id
  simp only [notifyAll, List.not_mem_nil, if_false]
  rw [termCount_append, termCount_closed_map]
  by_cases hm : id ∈ s.reg
  · rw [List.count_eq_one_of_mem h.1 hm]
    rw [if_pos hm] at hc
    omega
  · rw [List.count_eq_zero.mpr hm]
    rw [if_neg hm] at hc
    omega

/-- `dispatch_event` preserves the invariant (no terminal delivered,
registry untouched). -/
theorem dispatch_event_inv (s : ReaderState) (ev : Json) (h : ReaderInv s) :
    ReaderInv (dispatch_event s ev) := by
  unfold dispatch_event
  split
  · exact h
  · rename_i rid _
    split
    · refine ⟨h.1, fun id => ?_⟩
      simp only [termCount_append, termCount_event_singleton, Nat.add_zero]
      exact h.2 id
    · exact h

/-- `dispatch_result` preserves the invariant: the terminal `Result`
delivery consumes the pending slot it removes. -/
theorem dispatch_result_inv (s : ReaderState) (r : Json) (h : ReaderInv s) :
    ReaderInv (dispatch_result s r) := by
  unfold dispatch_result
  split
  · exact h
  · rename_i rid _
    split
    · rename_i hm
      refine ⟨h.1.filter _, fun id => ?_⟩
      simp only [termCount_append, termCount_result_singleton]
      have hc := h.2 id
      by_cases hid2 : rid = id
      · subst hid2
        have hnotf : rid ∉ regRemove rid s.reg := by
          intro hmem
          have := (List.mem_filter.mp hmem).2
          simp at this
        rw [if_pos rfl, if_neg hnotf]
        rw [if_pos hm] at hc
        omega
      · have hiff : id ∈ regRemove rid s.reg ↔ id ∈ s.reg := by
          simp only [regRemove, List.mem_filter, decide_eq_true_eq]
          exact ⟨fun h' => h'.1, fun h' => ⟨h', fun he => hid2 he.symm⟩⟩
        rw [if_neg hid2]
        by_cases hm2 : id ∈ s.reg
        · rw [if_pos (hiff.mpr hm2)]
          rw [if_pos hm2] at hc
          omega
        · rw [if_neg (fun hmem => hm2 (hiff.mp hmem))]
          rw [if_neg hm2] at hc
          omega
    · exact h

/-- `processEnvelope` preserves the invariant. -/
theorem processEnvelope_inv (s : ReaderState) (envelope : Json) (h : ReaderInv s) :
    ReaderInv (processEnvelope s envelope) := by
  unfold processEnvelope
  cases hev : envelope.get "event" with
  | none =>
    cases hres : envelope.get "result" with
    | none => exact h
    | some r => exact dispatch_result_inv s r h
  | some ev =>
    cases hres : envelope.get "result" with
    | none => exact dispatch_event_inv s ev h
    | some r => exact dispatch_result_inv _ r (dispatch_event_inv s ev h)

/-- Every session step preserves the invariant. -/
theorem readerStep_inv (s : ReaderState) (op : ReaderOp) (h : ReaderInv s) :
    ReaderInv (readerStep s op) := by
  obtain ⟨hnd, hcnt⟩ := h
  cases op with
  | register id0 =>
    refine ⟨?_, ?_⟩
    · simp only [readerStep, regInsert, List.nodup_cons]
      refine ⟨fun hmem => ?_, hnd.filter _⟩
      have := (List.mem_filter.mp hmem).2
      simp at this
    · intro id
      simp only [readerStep]
      rw [List.count_append, List.count_singleton']
      by_cases hid : id = id0
      · subst hid
        have hmem : id ∈ regInsert id s.reg := List.mem_cons_self _ _
        rw [if_pos hmem, if_pos rfl]
        have := hcnt id
        by_cases hm : id ∈ s.reg
        · rw [if_pos hm] at this; omega
        · rw [if_neg hm] at this; omega
      · have hiff : id ∈ regInsert id0 s.reg ↔ id ∈ s.reg := by
          simp [regInsert, List.mem_cons, List.mem_filter, hid]
        have := hcnt id
        rw [if_neg (fun h' : id0 = id => hid h'.symm)]
        by_cases hm : id ∈ s.reg
        · rw [if_pos (hiff.mpr hm)]
          rw [if_pos hm] at this
          omega
        · rw [if_neg (fun hmem => hm (hiff.mp hmem))]
          rw [if_neg hm] at this
          omega
  | removeReq id0 =>
    refine ⟨hnd.filter _, ?_⟩
    intro id
    simp only [readerStep]
    have := hcnt id
    by_cases hm : id ∈ regRemove id0 s.reg
    · rw [if_pos hm]
      rw [if_pos (List.mem_filter.mp hm).1] at this
      omega
    · rw [if_neg hm]
      by_cases hm2 : id ∈ s.reg
      · rw [if_pos hm2] at this; omega
      · rw [if_neg hm2] at this; omega
  | blankLine => exact ⟨hnd, hcnt⟩
  | malformedLine e =>
    simp only [readerStep]
    by_cases hr : s.running = true
    · rw [if_pos hr]
      exact notifyAll_inv s _ ⟨hnd, hcnt⟩
    · rw [if_neg hr]
      exact ⟨hnd, hcnt⟩
  | envelopeLine j =>
    simp only [readerStep]
    by_cases hr : s.running = true
    · rw [if_pos hr]
      exact processEnvelope_inv s j ⟨hnd, hcnt⟩
    · rw [if_neg hr]
      exact ⟨hnd, hcnt⟩
  | readError e =>
    simp only [readerStep]
    by_cases hr : s.running = true
    · rw [if_pos hr]
      have h' := notifyAll_inv s ("live transport read error: " ++ e) ⟨hnd, hcnt⟩
      exact ⟨h'.1, h'.2⟩
    · rw [if_neg hr]
      exact ⟨hnd, hcnt⟩
  | endOfStream =>
    simp only [readerStep]
    by_cases hr : s.running = true
    · rw [if_pos hr]
      have h' := notifyAll_inv s (closeMessage s.stderrBuf) ⟨hnd, hcnt⟩
      exact ⟨h'.1, h'.2⟩
    · rw [if_neg hr]
      exact ⟨hnd, hcnt⟩
  | stderrLine l => exact ⟨hnd, hcnt⟩

/-- The invariant holds along any trace from the initial state. -/
theorem foldl_reader_inv (ops : List ReaderOp) :
    ∀ s, ReaderInv s → ReaderInv (ops.foldl readerStep s) := by
  induction ops with
  | nil => exact fun s h => h
  | cons op ops ih => exact fun s h => ih _ (readerStep_inv s op h)

/-- The initial session state satisfies the invariant. -/
theorem readerInit_inv : ReaderInv readerInit := by
  refine ⟨List.nodup_nil, ?_⟩
  intro id
  simp [readerInit, termCount]

/-- C1: event envelopes are delivered without touching the registry
entry; a result envelope for a registered id removes the entry as part
of delivering `Result`; a result envelope for an unregistered id is
undeliverable (a no-op); and along any session trace in which each id is
registered at most once, at most one terminal message (`Result` or
`Closed`) is ever delivered for a given id. -/
theorem c1_terminal_delivered_at_most_once :
    (∀ (s : ReaderState) (ev : Json), (dispatch_event s ev).reg = s.reg) ∧
    (∀ (s : ReaderState) (r : Json) (rid : Nat),
      (r.get "id").bind value_to_request_id = some rid → rid ∈ s.reg →
      dispatch_result s r =
        { s with reg := regRemove rid s.reg,
                 delivered := s.delivered ++ [(rid, TransportMessage.result r)] }) ∧
    (∀ (s : ReaderState) (r : Json) (rid : Nat),
      (r.get "id").bind value_to_request_id = some rid → rid ∉ s.reg →
      dispatch_result s r = s) ∧
    (∀ (ops : List ReaderOp) (id : Nat),
      (runReader ops).registrations.Nodup →
      termCount (runReader ops).delivered id ≤ 1) := by
  refine ⟨?_, ?_, ?_, ?_⟩
  · intro s ev
    unfold dispatch_event
    cases hid : (ev.get "id").bind value_to_request_id with
    | none => rfl
    | some rid => by_cases hm : rid ∈ s.reg <;> simp [hm]
  · intro s r rid hid hm
    simp [dispatch_result, hid, hm]
  · intro s r rid hid hm
    simp [dispatch_result, hid, hm]
  · intro ops id hnodup
    have hinv : ReaderInv (runReader ops) :=
      foldl_reader_inv ops readerInit readerInit_inv
    have h1 := hinv.2 id
    have h2 : (runReader ops).registrations.count id ≤ 1 :=
      List.nodup_iff_count_le_one.mp hnodup id
    by_cases hm : id ∈ (runReader ops).reg
    · rw [if_pos hm] at h1; omega
    · rw [if_neg hm] at h1; omega

/-- Witness for C1 at concrete inputs: a registered result removes the
entry, a second result for the same id is a no-op, and one terminal is
delivered along the concrete trace. -/
theorem c1_terminal_delivered_at_most_once_witness :
    dispatch_result ⟨[4], [], [4], "", true⟩ (Json.obj [("id", Json.num 4)]) =
      { (⟨[4], [], [4], "", true⟩ : ReaderState) with
          reg := regRemove 4 [4],
          delivered := [] ++ [(4, TransportMessage.result (Json.obj [("id", Json.num 4)]))] } ∧
    dispatch_result ⟨[], [], [4], "", true⟩ (Json.obj [("id", Json.num 4)]) =
      ⟨[], [], [4], "", true⟩ ∧
    termCount (runReader [ReaderOp.register 4,
      ReaderOp.envelopeLine (Json.obj
        [("result", Json.obj [("id", Json.num 4)])])]).delivered 4 ≤ 1 :=
  ⟨(c1_terminal_delivered_at_most_once).2.1 ⟨[4], [], [4], "", true⟩
      (Json.obj [("id", Json.num 4)]) 4 rfl (by decide),
   (c1_terminal_delivered_at_most_once).2.2.1 ⟨[], [], [4], "", true⟩
      (Json.obj [("id", Json.num 4)]) 4 rfl (by decide),
   (c1_terminal_delivered_at_most_once).2.2.2 _ 4 (by decide)⟩

end Mlld
